import Mathlib

/-!
Shallow embedding of the velvet-town Backend room registry, connection pool
and private-message router (Go sources: the optimized room manager in
`src/unnamed/part_003`, `src/Player_Logic/websocket.go`, and
`src/Routing/player_routes.go`).

Go maps are modelled as association lists over `String` keys.  Insertion is
erase-then-cons, which is observationally equal to Go map assignment (same
`lookup` function, preserves key-uniqueness) even though it reorders entries.
`time.Time` / `time.Duration` values are modelled as `Nat` nanoseconds, the
unit Go's `time.Duration` uses; every operation that calls `time.Now()`
receives the current instant as an explicit `now : Nat` argument.
Mutexes and goroutine interleavings are not modelled: each exported Go
operation is embedded as one atomic state transition, which is its
sequential semantics.
-/

namespace Velvet

/-- Association-list lookup: first binding wins, like a Go map (which has at
most one binding per key). -/
def lookupK {α : Type} : List (String × α) → String → Option α
  | [], _ => none
  | (k, v) :: t, x => if k = x then some v else lookupK t x

/-- Remove every binding of key `k` (a Go `delete(m, k)`; on key-unique lists
this removes at most one binding). -/
def eraseK {α : Type} : List (String × α) → String → List (String × α)
  | [], _ => []
  | (k', v) :: t, k => if k' = k then eraseK t k else (k', v) :: eraseK t k

/-- Go map assignment `m[k] = v`: any old binding is replaced. -/
def insertK {α : Type} (m : List (String × α)) (k : String) (v : α) :
    List (String × α) :=
  (k, v) :: eraseK m k

/-- The key set of an association list. -/
def keysOf {α : Type} (m : List (String × α)) : List String :=
  m.map Prod.fst

theorem lookupK_eraseK {α : Type} (m : List (String × α)) (k x : String) :
    lookupK (eraseK m k) x = if k = x then none else lookupK m x := by
  induction m with
  | nil => simp [eraseK, lookupK]
  | cons hd t ih =>
    obtain ⟨k', v⟩ := hd
    by_cases hk : k' = k
    · subst hk
      rw [eraseK, if_pos rfl, ih, lookupK]
      by_cases hx : k' = x
      · subst hx; simp
      · simp [hx]
    · rw [eraseK, if_neg hk, lookupK]
      by_cases hx : k' = x
      · subst hx
        rw [if_pos rfl, if_neg (fun h => hk h.symm), lookupK, if_pos rfl]
      · rw [if_neg hx, ih, lookupK, if_neg hx]

theorem lookupK_insertK {α : Type} (m : List (String × α)) (k : String) (v : α)
    (x : String) :
    lookupK (insertK m k v) x = if k = x then some v else lookupK m x := by
  simp only [insertK, lookupK, lookupK_eraseK]
  by_cases hx : k = x <;> simp [hx]

theorem eraseK_of_lookupK_none {α : Type} (m : List (String × α)) (k : String)
    (h : lookupK m k = none) : eraseK m k = m := by
  induction m with
  | nil => rfl
  | cons hd t ih =>
    obtain ⟨k', v⟩ := hd
    simp only [lookupK] at h
    by_cases hk : k' = k
    · simp [hk] at h
    · simp only [eraseK, if_neg hk]
      rw [ih (by simpa [hk] using h)]

theorem lookupK_some_mem {α : Type} (m : List (String × α)) (x : String)
    (v : α) (h : lookupK m x = some v) : (x, v) ∈ m := by
  induction m with
  | nil => simp [lookupK] at h
  | cons hd t ih =>
    obtain ⟨k', v'⟩ := hd
    rw [lookupK] at h
    by_cases hk : k' = x
    · subst hk
      rw [if_pos rfl, Option.some.injEq] at h
      subst h; exact List.mem_cons_self _ _
    · rw [if_neg hk] at h
      exact List.mem_cons_of_mem _ (ih h)

theorem lookupK_eq_none_of_not_mem_keys {α : Type} (m : List (String × α))
    (x : String) (h : x ∉ keysOf m) : lookupK m x = none := by
  induction m with
  | nil => rfl
  | cons hd t ih =>
    obtain ⟨k', v'⟩ := hd
    simp only [keysOf, List.map_cons, List.mem_cons, not_or] at h
    rw [lookupK, if_neg (fun he : k' = x => h.1 he.symm)]
    exact ih h.2

theorem mem_keys_of_lookupK_some {α : Type} (m : List (String × α))
    (x : String) (v : α) (h : lookupK m x = some v) : x ∈ keysOf m := by
  have := lookupK_some_mem m x v h
  exact List.mem_map_of_mem Prod.fst this

theorem length_eraseK_le {α : Type} (m : List (String × α)) (k : String) :
    (eraseK m k).length ≤ m.length := by
  induction m with
  | nil => simp [eraseK]
  | cons hd t ih =>
    obtain ⟨k', v⟩ := hd
    by_cases hk : k' = k
    · simp only [eraseK, if_pos hk, List.length_cons]
      omega
    · simp only [eraseK, if_neg hk, List.length_cons]
      omega

/-!
## Data model

Translated from the `Room`, `Player`, `Position` and `RoomManager` structs of
`part_003` (package Player_Logic) and `player.go` content in `part_004`.
The Go `Position` carries two `float64` coordinates; no claim computes on
coordinate values (they are an inert payload carried through updates and
broadcasts), so the coordinate carrier is embedded as `Int`.  The Go
`Player.WS` connection handle is not part of the registry's observable state
(the connection pool is the authority for liveness) and is omitted.  The
`RoomManager.stats` block (counters used only by monitoring endpoints) is
omitted; no claim mentions it.
-/

structure Position where
  x : Int
  y : Int
deriving DecidableEq, Repr

structure Player where
  id : String
  username : String
  position : Position
  isActive : Bool
  lastSeen : Nat
deriving DecidableEq, Repr

structure Room where
  id : String
  players : List (String × Player)
  createdAt : Nat
  lastActivity : Nat
  playerCount : Int
deriving DecidableEq, Repr

/-- `RoomManager` from `part_003`.  The Go struct holds `mainRoom *Room` as a
pointer that aliases the entry `rooms[mainRoom.ID]`; the embedding keeps the
main room's id and reads the room itself through the `rooms` map, which is
exactly what the alias denotes. -/
structure RoomManager where
  mainRoomID : String
  rooms : List (String × Room)
  playerToRoom : List (String × String)
deriving DecidableEq, Repr

/-! Constants from `part_003` and `websocket.go`, durations in nanoseconds
(the unit of Go's `time.Duration`). -/

def timeSecond : Nat := 1000000000
def timeMinute : Nat := 60 * timeSecond
def MaxPlayersPerRoom : Nat := 20
def CleanupInterval : Nat := 5 * timeMinute
def InactiveRoomTimeout : Nat := 30 * timeMinute
def DisconnectedPlayerTTL : Nat := 80 * timeSecond
def MaxConcurrentConnections : Nat := 1000

/-!
## Room registry operations (from `part_003`)
-/

/-- `getRoomByID` (part_003 lines 221-226). -/
def getRoomByID (rm : RoomManager) (roomID : String) : Option Room :=
  lookupK rm.rooms roomID

/-- `getPlayerRoomID` (part_003 lines 332-337).  A Go map read of a missing
key yields the zero value `""`, which callers treat as "not indexed". -/
def getPlayerRoomID (rm : RoomManager) (playerID : String) : String :=
  (lookupK rm.playerToRoom playerID).getD ""

/-- The player literal built in `addPlayerToRoom` (part_003 lines 297-304). -/
def newPlayer (playerID : String) (now : Nat) : Player :=
  { id := playerID, username := "", position := { x := 0, y := 0 },
    isActive := true, lastSeen := now }

/-- `addPlayerToRoom` (part_003 lines 281-330).  The Go code checks capacity
twice, once under a read lock and again under the write lock; sequentially the
two checks see the same map, so they collapse to one check here.  On error the
registry is returned unchanged, as in Go. -/
def addPlayerToRoom (rm : RoomManager) (playerID roomID : String) (now : Nat) :
    RoomManager × Except String Room :=
  match getRoomByID rm roomID with
  | none => (rm, .error ("room " ++ roomID ++ " not found"))
  | some room =>
    if MaxPlayersPerRoom ≤ room.players.length then
      (rm, .error ("room " ++ roomID ++ " is full"))
    else
      let ps := insertK room.players playerID (newPlayer playerID now)
      let room' := { room with players := ps, lastActivity := now,
                               playerCount := Int.ofNat ps.length }
      ({ rm with rooms := insertK rm.rooms roomID room',
                 playerToRoom := insertK rm.playerToRoom playerID roomID },
       .ok room')

/-- `RemovePlayerOptimized` (part_003 lines 369-401).  The Go code writes
`IsActive := false` and `LastSeen := now` into the player record it is about
to delete from the map; the mutated record is unreachable from the registry
afterwards, so only the deletion is observable here. -/
def RemovePlayerOptimized (rm : RoomManager) (playerID : String) (now : Nat) :
    RoomManager :=
  let roomID := getPlayerRoomID rm playerID
  if roomID = "" then rm
  else
    match getRoomByID rm roomID with
    | none => { rm with playerToRoom := eraseK rm.playerToRoom playerID }
    | some room =>
      let room' :=
        if (lookupK room.players playerID).isSome then
          let ps := eraseK room.players playerID
          { room with players := ps, lastActivity := now,
                      playerCount := Int.ofNat ps.length }
        else room
      { rm with rooms := insertK rm.rooms roomID room',
                playerToRoom := eraseK rm.playerToRoom playerID }

/-- `RemovePlayer` (part_003 lines 403-406), a thin alias. -/
def RemovePlayer (rm : RoomManager) (playerID : String) (now : Nat) :
    RoomManager :=
  RemovePlayerOptimized rm playerID now

/-- The room literal built by `AddPlayerToSpecificRoom` when the target room
does not exist (part_003 lines 262-269). -/
def newRoom (roomID : String) (now : Nat) : Room :=
  { id := roomID, players := [], createdAt := now, lastActivity := now,
    playerCount := 0 }

/-- Step one of `AddPlayerToSpecificRoom` (part_003 lines 253-256): remove
the player from its current room if it has one. -/
def evictIfPresent (rm : RoomManager) (playerID : String) (now : Nat) :
    RoomManager :=
  if getPlayerRoomID rm playerID ≠ "" then
    RemovePlayerOptimized rm playerID now
  else rm

/-- Step two of `AddPlayerToSpecificRoom` (part_003 lines 258-276): create
the target room when it does not exist yet. -/
def ensureRoom (rm1 : RoomManager) (roomID : String) (now : Nat) :
    RoomManager :=
  if (getRoomByID rm1 roomID).isSome then rm1
  else { rm1 with rooms := insertK rm1.rooms roomID (newRoom roomID now) }

/-- `AddPlayerToSpecificRoom` (part_003 lines 243-279): fast path when the
player is already indexed in the target, otherwise evict, create the room if
missing, and admit.  The fast path returns `rm.getRoomByID(roomID)`, a value
that is `nil` exactly when the lookup misses, hence the `Option Room` in the
success payload. -/
def AddPlayerToSpecificRoom (rm : RoomManager) (playerID roomID : String)
    (now : Nat) : RoomManager × Except String (Option Room) :=
  if getPlayerRoomID rm playerID = roomID then
    (rm, .ok (getRoomByID rm roomID))
  else
    match addPlayerToRoom (ensureRoom (evictIfPresent rm playerID now)
        roomID now) playerID roomID now with
    | (rm3, .ok room) => (rm3, .ok (some room))
    | (rm3, .error e) => (rm3, .error e)

/-- `AddPlayer` (part_003 lines 228-241): admission into the main room.  The
fast path returns the `rm.mainRoom` pointer, which aliases the rooms-map entry
under the main id. -/
def AddPlayer (rm : RoomManager) (playerID : String) (now : Nat) :
    RoomManager × Except String (Option Room) :=
  if getPlayerRoomID rm playerID ≠ "" then
    if getPlayerRoomID rm playerID = rm.mainRoomID then
      (rm, .ok (getRoomByID rm rm.mainRoomID))
    else
      match addPlayerToRoom (RemovePlayerOptimized rm playerID now) playerID
              rm.mainRoomID now with
      | (rm', .ok room) => (rm', .ok (some room))
      | (rm', .error e) => (rm', .error e)
  else
    match addPlayerToRoom rm playerID rm.mainRoomID now with
    | (rm', .ok room) => (rm', .ok (some room))
    | (rm', .error e) => (rm', .error e)

/-- `GetPlayer` (part_003 lines 339-358).  Returns the possibly-repaired
registry together with the result; the index entry is deleted only in the
branch where the indexed room no longer exists. -/
def GetPlayer (rm : RoomManager) (playerID : String) :
    RoomManager × Option Player :=
  let roomID := getPlayerRoomID rm playerID
  if roomID = "" then (rm, none)
  else
    match getRoomByID rm roomID with
    | none => ({ rm with playerToRoom := eraseK rm.playerToRoom playerID },
               none)
    | some room => (rm, lookupK room.players playerID)

/-- `GetPlayerRoom` (part_003 lines 360-367). -/
def GetPlayerRoom (rm : RoomManager) (playerID : String) : Option Room :=
  let roomID := getPlayerRoomID rm playerID
  if roomID = "" then none else getRoomByID rm roomID

/-- `performCleanup` (part_003 lines 144-185): collect every non-main room
that is empty and inactive for more than `InactiveRoomTimeout`, then delete
the collected ids.  Collect-then-delete over a map equals one filter. -/
def performCleanup (rm : RoomManager) (now : Nat) : RoomManager :=
  { rm with
      rooms := rm.rooms.filter (fun e =>
        !(decide (e.1 ≠ rm.mainRoomID ∧ e.2.players.length = 0 ∧
                  InactiveRoomTimeout < now - e.2.lastActivity))) }

/-- The registry built by `GetRoomManager` (part_003 lines 73-103): one fresh
main room, empty index. -/
def initManager (mainID : String) (t : Nat) : RoomManager :=
  { mainRoomID := mainID, rooms := [(mainID, newRoom mainID t)],
    playerToRoom := [] }

/-!
## Broadcast router (from `websocket.go` and `part_003`)

`broadcastToRoomAsync` (websocket.go lines 525-559) snapshots, under the room
lock, the connections of every member other than `excludePlayerID` that the
connection pool knows, then offers the serialized frame to each.  The
observable routing decision is the list of target player ids; the pool is
embedded as the list of player ids that currently hold a connection.
-/

def broadcastToRoomAsyncTargets (room : Room) (excludePlayerID : String)
    (pool : List String) : List String :=
  (keysOf room.players).filter
    (fun pid => pid != excludePlayerID && pool.contains pid)

/-- `handlePositionUpdateOptimized` (part_003 lines 434-468): look the sender
up through the index, update its record and the room's activity, then
broadcast a `position_update` to the room excluding the sender.  Returns the
updated registry and the broadcast's target ids. -/
def handlePositionUpdateOptimized (rm : RoomManager) (playerID : String)
    (pos : Position) (username : String) (pool : List String) (now : Nat) :
    RoomManager × List String :=
  match GetPlayerRoom rm playerID with
  | none => (rm, [])
  | some room =>
    match lookupK room.players playerID with
    | none => (rm, [])
    | some player =>
      let player' := { player with
        position := pos, lastSeen := now,
        username := if username ≠ "" then username else player.username }
      let room' := { room with
        players := insertK room.players playerID player', lastActivity := now }
      ({ rm with
           rooms := insertK rm.rooms (getPlayerRoomID rm playerID) room' },
       broadcastToRoomAsyncTargets room' playerID pool)

/-- `handleChatMessage` (websocket.go lines 355-373): broadcast the chat frame
to the sender's room, excluding the sender.  Only the target ids are the
observable routing decision. -/
def handleChatMessageTargets (rm : RoomManager) (senderID : String)
    (pool : List String) : List String :=
  match GetPlayerRoom rm senderID with
  | none => []
  | some room => broadcastToRoomAsyncTargets room senderID pool

/-- `handleDisconnect` (websocket.go lines 478-498): delete the player from
its room and broadcast `player_left` to the remainder, excluding the leaver.
Returns the updated registry and the broadcast targets. -/
def handleDisconnect (rm : RoomManager) (playerID : String)
    (pool : List String) : RoomManager × List String :=
  match GetPlayerRoom rm playerID with
  | none => (rm, [])
  | some room =>
    let room' :=
      if (lookupK room.players playerID).isSome then
        { room with players := eraseK room.players playerID }
      else room
    ({ rm with
         rooms := insertK rm.rooms (getPlayerRoomID rm playerID) room' },
     broadcastToRoomAsyncTargets room' playerID pool)

/-- The join broadcast of `sendInitialRoomState` (websocket.go lines 262-272):
`player_joined` goes to the room excluding the newcomer. -/
def sendInitialRoomStateJoinTargets (room : Room) (playerID : String)
    (pool : List String) : List String :=
  broadcastToRoomAsyncTargets room playerID pool

/-!
## Private-message handler and rate limiter (websocket.go lines 375-476)
-/

/-- The per-connection rate-limit fields of the Go `Connection` struct
(`lastMessageTime time.Time`, `messageCount int`).  A fresh connection has
both at their zero values. -/
structure ConnState where
  lastMessageTime : Nat
  messageCount : Nat
deriving DecidableEq, Repr

/-- The rate-limit prelude of `handlePrivateMessage` (lines 377-388): inside
the running minute the counter is incremented and the frame is dropped once
the counter exceeds 20; otherwise the window restarts with count 1.  Returns
the new counter state and whether the frame may proceed. -/
def rateLimitStep (st : ConnState) (now : Nat) : ConnState × Bool :=
  if now - st.lastMessageTime < timeMinute then
    let st' := { st with messageCount := st.messageCount + 1 }
    if 20 < st'.messageCount then (st', false) else (st', true)
  else
    ({ lastMessageTime := now, messageCount := 1 }, true)

/-- `strings.TrimSpace` over the frame text.  Lean's `String.trim` is not
kernel-reducible, so the trim is embedded directly over the character list;
it strips the ASCII whitespace Go strips (the claims only exercise ASCII
payloads). -/
def trimSpace (s : String) : String :=
  String.mk (((s.data.dropWhile Char.isWhitespace).reverse.dropWhile
    Char.isWhitespace).reverse)

/-- What one inbound `private_message` frame caused: a frame offered to the
target's queue, a `private_message_sent` confirmation offered to the sender,
a `private_message_error` offered to the sender. -/
structure PMEffect where
  sentToTarget : Bool
  confirmToSender : Bool
  errorToSender : Bool
deriving DecidableEq, Repr

def noEffect : PMEffect :=
  { sentToTarget := false, confirmToSender := false, errorToSender := false }

def deliveredEffect : PMEffect :=
  { sentToTarget := true, confirmToSender := true, errorToSender := false }

/-- `handlePrivateMessage` (websocket.go lines 375-476).  Validation order is
the source order: rate limit, then length > 500, then empty-after-trim, then
missing target, then self-target, then registry lookup of the target.  The Go
length check counts bytes and `strings.TrimSpace` trims Unicode space; the
embedding uses `String.length` and `String.trim`, which agree on the ASCII
payloads every claim uses.  Channel offers are modelled as delivered (queue
overflow drops are outside the sequential model). -/
def handlePrivateMessage (rm : RoomManager) (st : ConnState)
    (senderID targetID text : String) (pool : List String) (now : Nat) :
    RoomManager × ConnState × PMEffect :=
  let r := rateLimitStep st now
  if r.2 = false then (rm, r.1, noEffect)
  else if 500 < text.length then (rm, r.1, noEffect)
  else if trimSpace text = "" then (rm, r.1, noEffect)
  else if targetID = "" then (rm, r.1, noEffect)
  else if targetID = senderID then (rm, r.1, noEffect)
  else
    match GetPlayer rm targetID with
    | (rm', none) =>
      (rm', r.1, { sentToTarget := false, confirmToSender := false,
                   errorToSender := true })
    | (rm', some _) =>
      (rm', r.1, { sentToTarget := pool.contains targetID,
                   confirmToSender := true, errorToSender := false })

/-- Run a sequence of `private_message` frames (fixed sender, target and
text) through one connection's read pump, threading the registry and the
rate-limit state, and collect the per-frame effects. -/
def runFrames (rm : RoomManager) (pool : List String)
    (senderID targetID text : String) (st : ConnState) :
    List Nat → RoomManager × ConnState × List PMEffect
  | [] => (rm, st, [])
  | t :: ts =>
    let r1 := handlePrivateMessage rm st senderID targetID text pool t
    let r2 := runFrames r1.1 pool senderID targetID text r1.2.1 ts
    (r2.1, r2.2.1, r1.2.2 :: r2.2.2)

/-!
## Connection pool (websocket.go lines 59-238)
-/

/-- A pooled connection.  Of the Go `Connection` struct only the identity of
the object matters to the pool claims; `serial` distinguishes two connections
of the same player. -/
structure Connection where
  playerID : String
  serial : Nat
deriving DecidableEq, Repr

structure ConnectionPool where
  connections : List (String × Connection)
  count : Int
deriving DecidableEq, Repr

def emptyPool : ConnectionPool := { connections := [], count := 0 }

/-- `addConnection` (websocket.go lines 202-217): cancel and delete any
existing connection of the player (decrementing `count`), then insert the new
one and increment `count`.  Cancellation itself acts on the evicted
connection's context and leaves no trace in the pool state. -/
def addConnection (cp : ConnectionPool) (playerID : String)
    (conn : Connection) : ConnectionPool :=
  let cp1 :=
    if (lookupK cp.connections playerID).isSome then
      { connections := eraseK cp.connections playerID, count := cp.count - 1 }
    else cp
  { connections := (playerID, conn) :: cp1.connections, count := cp1.count + 1 }

/-- `removeConnection` (websocket.go lines 219-230): cancel and delete if
present, decrementing `count`; no-op otherwise. -/
def removeConnection (cp : ConnectionPool) (playerID : String) :
    ConnectionPool :=
  if (lookupK cp.connections playerID).isSome then
    { connections := eraseK cp.connections playerID, count := cp.count - 1 }
  else cp

inductive PoolOp where
  | add (playerID : String) (conn : Connection)
  | remove (playerID : String)
deriving DecidableEq, Repr

def applyPoolOp (cp : ConnectionPool) : PoolOp → ConnectionPool
  | .add p c => addConnection cp p c
  | .remove p => removeConnection cp p

def applyPoolOps (cp : ConnectionPool) (ops : List PoolOp) : ConnectionPool :=
  ops.foldl applyPoolOp cp

/-!
## HTTP join handlers (`src/Routing/player_routes.go`)
-/

/-- A handler's observable HTTP outcome: either the success JSON (identified
by the admitted room, `none` when `AddPlayer`'s fast path returned a missing
room) or an `http.Error` with its status code and message. -/
inductive HttpOut where
  | success (room : Option Room)
  | httpError (status : Nat) (body : String)
deriving DecidableEq, Repr

/-- `handleJoinRoom` (player_routes.go lines 386-439): POST + Authorization
checks, then `AddPlayer`; any admission error is masked as status 500 with
body "Failed to join room".  The fire-and-forget last-room database write has
no effect on the response and is omitted. -/
def handleJoinRoom (rm : RoomManager) (method authToken : String)
    (now : Nat) : RoomManager × HttpOut :=
  if method ≠ "POST" then (rm, .httpError 405 "Method not allowed")
  else if authToken = "" then (rm, .httpError 401 "Unauthorized")
  else
    match AddPlayer rm authToken now with
    | (rm', .error _) => (rm', .httpError 500 "Failed to join room")
    | (rm', .ok room) => (rm', .success room)

/-- `handleJoinSpecificRoom` (player_routes.go lines 442-517): POST +
Authorization checks, body decode (`none` models an undecodable body), the
two room-id validations, then `AddPlayerToSpecificRoom`; an admission error
is surfaced verbatim as status 500 with `err.Error()` as body. -/
def handleJoinSpecificRoom (rm : RoomManager) (method authToken : String)
    (body : Option String) (now : Nat) : RoomManager × HttpOut :=
  if method ≠ "POST" then (rm, .httpError 405 "Method not allowed")
  else if authToken = "" then (rm, .httpError 401 "Unauthorized")
  else
    match body with
    | none => (rm, .httpError 400 "Invalid request body")
    | some roomID =>
      if roomID = "" then (rm, .httpError 400 "room_id is required")
      else if 10 < roomID.length then
        (rm, .httpError 400 "room_id too long (max 10 characters)")
      else
        match AddPlayerToSpecificRoom rm authToken roomID now with
        | (rm', .error e) => (rm', .httpError 500 e)
        | (rm', .ok room) => (rm', .success room)

/-!
## Concrete fixtures used by witnesses and counterexamples
-/

/-- An empty non-main room for admission tests. -/
def c1Room : Room := newRoom "R" 0

def c1RM : RoomManager :=
  { mainRoomID := "M", rooms := [("M", newRoom "M" 0), ("R", c1Room)],
    playerToRoom := [] }

/-- A registry whose index maps "p" to room "R" while room "R" exists but no
longer contains "p": the stale-index situation of C2's second case. -/
def c2StaleRoom : Room := newRoom "R" 0

def c2RM : RoomManager :=
  { mainRoomID := "M", rooms := [("M", newRoom "M" 0), ("R", c2StaleRoom)],
    playerToRoom := [("p", "R")] }

/-!
## C1 — addPlayerToRoom capacity behaviour
-/

/-- Claim C1: for a room the registry knows and a player not already in it,
`addPlayerToRoom` succeeds whenever the room has at most 19 members (and the
membership grows by exactly one), fails with the `RoomFull` error message
when the room already has 20 members, and no successful admission ever leaves
the room with more than 20 members. -/
theorem claim1_addPlayerToRoom_capacity (rm : RoomManager) (p r : String)
    (room : Room) (now : Nat)
    (hroom : lookupK rm.rooms r = some room)
    (hnotin : lookupK room.players p = none) :
    (room.players.length ≤ 19 →
       ∃ rm' room', addPlayerToRoom rm p r now = (rm', .ok room') ∧
         room'.players.length = room.players.length + 1) ∧
    (room.players.length = 20 →
       addPlayerToRoom rm p r now =
         (rm, .error ("room " ++ r ++ " is full"))) ∧
    (∀ rm' room', addPlayerToRoom rm p r now = (rm', .ok room') →
       room'.players.length ≤ 20) := by
  refine ⟨?_, ?_, ?_⟩
  · intro hle
    have hcap : ¬ MaxPlayersPerRoom ≤ room.players.length := by
      simp only [MaxPlayersPerRoom]; omega
    simp only [addPlayerToRoom, getRoomByID, hroom, if_neg hcap]
    refine ⟨_, _, rfl, ?_⟩
    simp [insertK, eraseK_of_lookupK_none _ _ hnotin]
  · intro h20
    have hcap : MaxPlayersPerRoom ≤ room.players.length := by
      simp [MaxPlayersPerRoom, h20]
    simp only [addPlayerToRoom, getRoomByID, hroom, if_pos hcap]
  · intro rm' room' h
    simp only [addPlayerToRoom, getRoomByID, hroom] at h
    by_cases hcap : MaxPlayersPerRoom ≤ room.players.length
    · rw [if_pos hcap] at h
      simp at h
    · rw [if_neg hcap] at h
      simp only [Prod.mk.injEq, Except.ok.injEq] at h
      obtain ⟨-, h2⟩ := h
      subst h2
      have := length_eraseK_le room.players p
      simp only [MaxPlayersPerRoom, not_le] at hcap
      simp only [insertK, List.length_cons]
      omega

/-- Witness for C1: admitting "p" into the empty room "R" of `c1RM`
succeeds and grows the membership from 0 to 1. -/
theorem claim1_witness :
    ∃ rm' room', addPlayerToRoom c1RM "p" "R" 5 = (rm', .ok room') ∧
      room'.players.length = c1Room.players.length + 1 :=
  (claim1_addPlayerToRoom_capacity c1RM "p" "R" c1Room 5 (by decide)
    (by decide)).1 (by decide)

/-!
## C2 — GetPlayer stale-index behaviour (corrected)
-/

/-- Counterexample to claim C2 as stated: in `c2RM` the index entry of "p"
points at room "R", which exists but does not contain "p"; `GetPlayer`
returns absent yet does NOT delete the stale index entry. -/
theorem claim2_counterexample :
    lookupK c2RM.playerToRoom "p" = some "R" ∧
    lookupK c2RM.rooms "R" = some c2StaleRoom ∧
    lookupK c2StaleRoom.players "p" = none ∧
    (GetPlayer c2RM "p").2 = none ∧
    lookupK (GetPlayer c2RM "p").1.playerToRoom "p" = some "R" := by decide

/-- Claim C2 amended: when the index entry of `p` points at room `r`, if the
room no longer exists `GetPlayer` deletes the stale entry and returns absent,
but if the room exists without containing `p` it returns absent while leaving
the index untouched. -/
theorem claim2_getPlayer_stale_index (rm : RoomManager) (p r : String)
    (hidx : lookupK rm.playerToRoom p = some r) (hr0 : r ≠ "") :
    (lookupK rm.rooms r = none →
       GetPlayer rm p =
         ({ rm with playerToRoom := eraseK rm.playerToRoom p }, none)) ∧
    (∀ room, lookupK rm.rooms r = some room →
       lookupK room.players p = none → GetPlayer rm p = (rm, none)) := by
  constructor
  · intro hnone
    simp only [GetPlayer, getPlayerRoomID, hidx, Option.getD_some,
      if_neg hr0, getRoomByID, hnone]
  · intro room hsome hnp
    simp only [GetPlayer, getPlayerRoomID, hidx, Option.getD_some,
      if_neg hr0, getRoomByID, hsome, hnp]

/-- Witness for the amended C2, second case: on `c2RM` the stale-index read
returns absent with the registry unchanged. -/
theorem claim2_witness : GetPlayer c2RM "p" = (c2RM, none) :=
  (claim2_getPlayer_stale_index c2RM "p" "R" (by decide) (by decide)).2
    c2StaleRoom (by decide) (by decide)

/-!
## C3 — Add-then-Remove round trip (corrected)
-/

/-- Counterexample to claim C3 as stated: starting from a fresh registry
(main room "M" only), `AddPlayerToSpecificRoom "p" "R"` followed by
`RemovePlayer "p"` leaves behind a newly created empty room "R" that the
prior state did not have, so the registry is not returned to its prior state
(the set of rooms differs). -/
theorem claim3_counterexample :
    (lookupK (RemovePlayer
        (AddPlayerToSpecificRoom (initManager "M" 0) "p" "R" 1).1
        "p" 2).rooms "R").isSome = true ∧
    (lookupK (initManager "M" 0).rooms "R").isSome = false := by decide

/-- Claim C3 amended: when the player has no index entry, the target room
already exists and does not contain the player, `AddPlayerToSpecificRoom`
followed by `RemovePlayer` restores the prior registry modulo
`last_activity` (and the derived `playerCount` cache): every room id resolves
to the same membership map as before, the player index is unchanged, and the
main-room id is unchanged. -/
theorem claim3_add_remove_roundtrip (rm : RoomManager) (p r : String)
    (room : Room) (now now2 : Nat)
    (hidx : lookupK rm.playerToRoom p = none)
    (hroom : lookupK rm.rooms r = some room)
    (hmem : lookupK room.players p = none) :
    (∀ x, Option.map Room.players
        (lookupK (RemovePlayer
          (AddPlayerToSpecificRoom rm p r now).1 p now2).rooms x) =
      Option.map Room.players (lookupK rm.rooms x)) ∧
    (∀ q, lookupK (RemovePlayer
        (AddPlayerToSpecificRoom rm p r now).1 p now2).playerToRoom q =
      lookupK rm.playerToRoom q) ∧
    (RemovePlayer
      (AddPlayerToSpecificRoom rm p r now).1 p now2).mainRoomID =
      rm.mainRoomID := by
  have hg : getPlayerRoomID rm p = "" := by
    simp [getPlayerRoomID, hidx]
  by_cases hre : r = ""
  · subst hre
    have hfast : AddPlayerToSpecificRoom rm p "" now =
        (rm, .ok (getRoomByID rm "")) := by
      simp [AddPlayerToSpecificRoom, hg]
    have hrm : RemovePlayer rm p now2 = rm := by
      simp [RemovePlayer, RemovePlayerOptimized, hg]
    rw [hfast]
    simp [hrm]
  · have hne : ¬ getPlayerRoomID rm p = r := by
      rw [hg]; exact fun h => hre h.symm
    have hev : evictIfPresent rm p now = rm := by
      simp [evictIfPresent, hg]
    have hen : ensureRoom rm r now = rm := by
      rw [ensureRoom, if_pos (by rw [getRoomByID, hroom]; rfl)]
    by_cases hcap : MaxPlayersPerRoom ≤ room.players.length
    · have hadd : addPlayerToRoom rm p r now =
          (rm, .error ("room " ++ r ++ " is full")) := by
        simp only [addPlayerToRoom, getRoomByID, hroom, if_pos hcap]
      have hspec : (AddPlayerToSpecificRoom rm p r now).1 = rm := by
        simp only [AddPlayerToSpecificRoom, if_neg hne, hev, hen, hadd]
      have hrm : RemovePlayer rm p now2 = rm := by
        simp [RemovePlayer, RemovePlayerOptimized, hg]
      rw [hspec, hrm]
      exact ⟨fun x => rfl, fun q => rfl, rfl⟩
    · have hadd : addPlayerToRoom rm p r now =
          ({ rm with
               rooms := insertK rm.rooms r
                 { room with
                     players := insertK room.players p (newPlayer p now),
                     lastActivity := now,
                     playerCount := Int.ofNat
                       (insertK room.players p (newPlayer p now)).length },
               playerToRoom := insertK rm.playerToRoom p r },
           .ok { room with
                   players := insertK room.players p (newPlayer p now),
                   lastActivity := now,
                   playerCount := Int.ofNat
                     (insertK room.players p (newPlayer p now)).length }) := by
        simp only [addPlayerToRoom, getRoomByID, hroom, if_neg hcap]
      have hspec : (AddPlayerToSpecificRoom rm p r now).1 =
          { rm with
              rooms := insertK rm.rooms r
                { room with
                    players := insertK room.players p (newPlayer p now),
                    lastActivity := now,
                    playerCount := Int.ofNat
                      (insertK room.players p (newPlayer p now)).length },
              playerToRoom := insertK rm.playerToRoom p r } := by
        simp only [AddPlayerToSpecificRoom, if_neg hne, hev, hen, hadd]
      rw [hspec]
      have hps : insertK room.players p (newPlayer p now) =
          (p, newPlayer p now) :: room.players := by
        simp [insertK, eraseK_of_lookupK_none _ _ hmem]
      have hrem : RemovePlayerOptimized
          { rm with
              rooms := insertK rm.rooms r
                { room with
                    players := insertK room.players p (newPlayer p now),
                    lastActivity := now,
                    playerCount := Int.ofNat
                      (insertK room.players p (newPlayer p now)).length },
              playerToRoom := insertK rm.playerToRoom p r } p now2 =
          { rm with
              rooms := insertK (insertK rm.rooms r
                { room with
                    players := insertK room.players p (newPlayer p now),
                    lastActivity := now,
                    playerCount := Int.ofNat
                      (insertK room.players p (newPlayer p now)).length }) r
                { room with
                    players := room.players,
                    lastActivity := now2,
                    playerCount := Int.ofNat room.players.length },
              playerToRoom := eraseK (insertK rm.playerToRoom p r) p } := by
        simp only [RemovePlayerOptimized, getPlayerRoomID, lookupK_insertK,
          if_pos rfl, Option.getD_some, if_neg hre, getRoomByID, hps, lookupK,
          Option.isSome_some, if_true, eraseK, eraseK_of_lookupK_none _ _ hmem]
      rw [RemovePlayer, hrem]
      refine ⟨?_, ?_, rfl⟩
      · intro x
        by_cases hx : r = x
        · subst hx
          simp [lookupK_insertK, hroom]
        · simp [lookupK_insertK, hx]
      · intro q
        by_cases hq : p = q
        · subst hq
          simp [lookupK_eraseK, hidx]
        · simp [lookupK_eraseK, lookupK_insertK, hq]

/-- Witness for the amended C3 on a concrete registry: "p" is unindexed,
room "R" exists empty; add-then-remove leaves memberships, index and main id
as before. -/
theorem claim3_witness :
    (∀ x, Option.map Room.players
        (lookupK (RemovePlayer
          (AddPlayerToSpecificRoom c1RM "p" "R" 7).1 "p" 8).rooms x) =
      Option.map Room.players (lookupK c1RM.rooms x)) ∧
    (∀ q, lookupK (RemovePlayer
        (AddPlayerToSpecificRoom c1RM "p" "R" 7).1 "p" 8).playerToRoom q =
      lookupK c1RM.playerToRoom q) ∧
    (RemovePlayer
      (AddPlayerToSpecificRoom c1RM "p" "R" 7).1 "p" 8).mainRoomID =
      c1RM.mainRoomID :=
  claim3_add_remove_roundtrip c1RM "p" "R" c1Room 7 8 (by decide) (by decide)
    (by decide)

/-!
## Shared helper lemmas about registry operations
-/

/-- Removing a player touches no rooms-map entry other than the one its index
names. -/
theorem lookupK_rooms_removePlayer (rm : RoomManager) (p : String) (now : Nat)
    (x : String) (hx : x ≠ getPlayerRoomID rm p) :
    lookupK (RemovePlayerOptimized rm p now).rooms x = lookupK rm.rooms x := by
  simp only [RemovePlayerOptimized]
  by_cases h0 : getPlayerRoomID rm p = ""
  · simp [h0]
  · simp only [if_neg h0]
    cases hq : getRoomByID rm (getPlayerRoomID rm p) with
    | none => rfl
    | some room =>
      have hne : ¬ (getPlayerRoomID rm p = x) := fun h => hx h.symm
      simp only [lookupK_insertK, if_neg hne]

/-- After an eviction, the evicted player's old room (when it exists) holds
the player-free membership map. -/
theorem removePlayer_rooms_self (rm : RoomManager) (p : String) (now : Nat)
    (h0 : getPlayerRoomID rm p ≠ "") (roomQ : Room)
    (hq : lookupK rm.rooms (getPlayerRoomID rm p) = some roomQ) :
    lookupK (RemovePlayerOptimized rm p now).rooms (getPlayerRoomID rm p) =
      some (if (lookupK roomQ.players p).isSome then
        { roomQ with players := eraseK roomQ.players p, lastActivity := now,
                     playerCount := Int.ofNat (eraseK roomQ.players p).length }
      else roomQ) := by
  simp only [RemovePlayerOptimized, if_neg h0, getRoomByID, hq,
    lookupK_insertK, if_pos rfl]
  simp

/-- When the indexed room is already gone, eviction leaves the rooms map
untouched. -/
theorem removePlayer_rooms_none (rm : RoomManager) (p : String) (now : Nat)
    (h0 : getPlayerRoomID rm p ≠ "")
    (hq : lookupK rm.rooms (getPlayerRoomID rm p) = none) :
    (RemovePlayerOptimized rm p now).rooms = rm.rooms := by
  simp only [RemovePlayerOptimized, if_neg h0, getRoomByID, hq]

/-- Removing an indexed player always erases its index entry. -/
theorem lookupK_index_removePlayer_self (rm : RoomManager) (p : String)
    (now : Nat) (h0 : getPlayerRoomID rm p ≠ "") :
    lookupK (RemovePlayerOptimized rm p now).playerToRoom p = none := by
  simp only [RemovePlayerOptimized, if_neg h0]
  cases hq : getRoomByID rm (getPlayerRoomID rm p) with
  | none => simp [lookupK_eraseK]
  | some room => simp [lookupK_eraseK]

/-- `addPlayerToRoom` against a room at (or beyond) capacity fails with the
literal `room X is full` error and leaves the registry unchanged. -/
theorem addPlayerToRoom_full (rm : RoomManager) (p r : String) (room : Room)
    (now : Nat) (hr : lookupK rm.rooms r = some room)
    (hfull : MaxPlayersPerRoom ≤ room.players.length) :
    addPlayerToRoom rm p r now = (rm, .error ("room " ++ r ++ " is full")) := by
  simp only [addPlayerToRoom, getRoomByID, hr, if_pos hfull]

/-- `AddPlayerToSpecificRoom` against an existing full target room (for a
player not already indexed there) fails with the `room X is full` error; the
resulting registry is the one left behind by the eviction from the player's
current room. -/
theorem addSpecific_full (rm : RoomManager) (p rid : String) (room : Room)
    (now : Nat) (hrid_ne : getPlayerRoomID rm p ≠ rid)
    (hr : lookupK rm.rooms rid = some room)
    (hfull : MaxPlayersPerRoom ≤ room.players.length) :
    AddPlayerToSpecificRoom rm p rid now =
      (evictIfPresent rm p now, .error ("room " ++ rid ++ " is full")) := by
  have hrm1 : lookupK (evictIfPresent rm p now).rooms rid = some room := by
    rw [evictIfPresent]
    split
    · rw [lookupK_rooms_removePlayer rm p now rid (fun h => hrid_ne h.symm)]
      exact hr
    · exact hr
  have hens : ensureRoom (evictIfPresent rm p now) rid now =
      evictIfPresent rm p now := by
    rw [ensureRoom, if_pos (by rw [getRoomByID, hrm1]; rfl)]
  simp only [AddPlayerToSpecificRoom, if_neg hrid_ne, hens,
    addPlayerToRoom_full (evictIfPresent rm p now) p rid room now hrm1 hfull]

/-!
## C4 — HTTP surface of the RoomFull error (corrected)
-/

/-- A registry whose main room "M" and a second room "R" are both at the
20-player capacity, with an empty index. -/
def fullPlayers : List (String × Player) :=
  (List.range MaxPlayersPerRoom).map (fun i => (toString i, newPlayer (toString i) 0))

def fullRoom (rid : String) : Room :=
  { id := rid, players := fullPlayers, createdAt := 0, lastActivity := 0,
    playerCount := Int.ofNat MaxPlayersPerRoom }

def c4RM : RoomManager :=
  { mainRoomID := "M", rooms := [("M", fullRoom "M"), ("R", fullRoom "R")],
    playerToRoom := [] }

/-- Counterexample to claim C4 as stated: a join-room request by a fresh
player against the full main room of `c4RM` fails with status 500, but its
body is the generic "Failed to join room", not "room M is full". -/
theorem claim4_counterexample :
    (handleJoinRoom c4RM "POST" "newguy" 3).2 =
      HttpOut.httpError 500 "Failed to join room" ∧
    "Failed to join room" ≠ "room " ++ "M" ++ " is full" := by
  constructor
  · decide
  · decide

/-- Claim C4 amended: when a join request fails because the target room is at
capacity, `join-specific-room` answers 500 with body exactly "room X is
full", while `join-room` answers 500 with the generic body "Failed to join
room". -/
theorem claim4_roomfull_http (rm : RoomManager) (p rid : String)
    (room mroom : Room) (now : Nat) (hp : p ≠ "")
    (hrid0 : rid ≠ "") (hrid10 : rid.length ≤ 10)
    (hr : lookupK rm.rooms rid = some room)
    (hfull : MaxPlayersPerRoom ≤ room.players.length)
    (hnotin : getPlayerRoomID rm p ≠ rid)
    (hm : lookupK rm.rooms rm.mainRoomID = some mroom)
    (hmfull : MaxPlayersPerRoom ≤ mroom.players.length)
    (hnotmain : getPlayerRoomID rm p ≠ rm.mainRoomID) :
    (handleJoinSpecificRoom rm "POST" p (some rid) now).2 =
      HttpOut.httpError 500 ("room " ++ rid ++ " is full") ∧
    (handleJoinRoom rm "POST" p now).2 =
      HttpOut.httpError 500 "Failed to join room" := by
  constructor
  · have hlen : ¬ 10 < rid.length := not_lt.mpr hrid10
    simp only [handleJoinSpecificRoom, ne_eq, not_true_eq_false, if_false,
      if_neg hp, if_neg hrid0, if_neg hlen,
      addSpecific_full rm p rid room now hnotin hr hfull]
  · by_cases h0 : getPlayerRoomID rm p = ""
    · have hadd : addPlayerToRoom rm p rm.mainRoomID now =
          (rm, .error ("room " ++ rm.mainRoomID ++ " is full")) :=
        addPlayerToRoom_full rm p rm.mainRoomID mroom now hm hmfull
      simp only [handleJoinRoom, ne_eq, not_true_eq_false, if_false,
        if_neg hp, AddPlayer, h0, hadd]
    · have hm1 : lookupK (RemovePlayerOptimized rm p now).rooms rm.mainRoomID
          = some mroom := by
        rw [lookupK_rooms_removePlayer rm p now rm.mainRoomID
          (fun h => hnotmain h.symm)]
        exact hm
      have hadd : addPlayerToRoom (RemovePlayerOptimized rm p now) p
          rm.mainRoomID now =
          (RemovePlayerOptimized rm p now,
           .error ("room " ++ rm.mainRoomID ++ " is full")) :=
        addPlayerToRoom_full (RemovePlayerOptimized rm p now) p rm.mainRoomID
          mroom now hm1 hmfull
      simp only [handleJoinRoom, ne_eq, not_true_eq_false, if_false,
        if_neg hp, AddPlayer, h0, not_false_eq_true, if_true,
        if_neg hnotmain, hadd]

/-- Witness for the amended C4 on `c4RM`: a fresh player "zz" against the
full rooms "R" (specific path) and "M" (main path). -/
theorem claim4_witness :
    (handleJoinSpecificRoom c4RM "POST" "zz" (some "R") 3).2 =
      HttpOut.httpError 500 ("room " ++ "R" ++ " is full") ∧
    (handleJoinRoom c4RM "POST" "zz" 3).2 =
      HttpOut.httpError 500 "Failed to join room" :=
  claim4_roomfull_http c4RM "zz" "R" (fullRoom "R") (fullRoom "M") 3
    (by decide) (by decide) (by decide) (by decide) (by decide) (by decide)
    (by decide) (by decide) (by decide)

/-!
## C8 — failed specific admission is not atomic
-/

/-- Claim C8: if `AddPlayerToSpecificRoom(p, r)` fails with `RoomFull` while
`p` previously resided in a different room `q` (and in no other room), then
after the failed call `p` has no index entry and belongs to no room: the
eviction from `q` happened before the capacity check, so the failure leaves a
changed state. -/
theorem claim8_failed_add_not_atomic (rm : RoomManager) (p q r : String)
    (roomR : Room) (now : Nat)
    (hq : lookupK rm.playerToRoom p = some q) (hq0 : q ≠ "") (hqr : q ≠ r)
    (hr : lookupK rm.rooms r = some roomR)
    (hfull : MaxPlayersPerRoom ≤ roomR.players.length)
    (honce : ∀ e ∈ rm.rooms, e.1 ≠ q → lookupK e.2.players p = none) :
    (AddPlayerToSpecificRoom rm p r now).2 =
      .error ("room " ++ r ++ " is full") ∧
    lookupK (AddPlayerToSpecificRoom rm p r now).1.playerToRoom p = none ∧
    (∀ x rx, lookupK (AddPlayerToSpecificRoom rm p r now).1.rooms x = some rx →
       lookupK rx.players p = none) := by
  have hgq : getPlayerRoomID rm p = q := by
    simp [getPlayerRoomID, hq]
  have hgq0 : getPlayerRoomID rm p ≠ "" := by rw [hgq]; exact hq0
  have hgqr : getPlayerRoomID rm p ≠ r := by rw [hgq]; exact hqr
  have hspec := addSpecific_full rm p r roomR now hgqr hr hfull
  rw [hspec]
  have hev : evictIfPresent rm p now = RemovePlayerOptimized rm p now := by
    rw [evictIfPresent, if_pos hgq0]
  refine ⟨rfl, ?_, ?_⟩
  · rw [hev]
    exact lookupK_index_removePlayer_self rm p now hgq0
  · intro x rx hx
    rw [hev] at hx
    by_cases hxq : x = getPlayerRoomID rm p
    · subst hxq
      cases hqroom : lookupK rm.rooms (getPlayerRoomID rm p) with
      | none =>
        rw [removePlayer_rooms_none rm p now hgq0 hqroom, hqroom] at hx
        exact absurd hx (by simp)
      | some roomQ =>
        rw [removePlayer_rooms_self rm p now hgq0 roomQ hqroom] at hx
        injection hx with hrx
        rw [← hrx]
        by_cases hin : (lookupK roomQ.players p).isSome
        · simp [if_pos hin, lookupK_eraseK]
        · simp only [if_neg hin]
          exact Option.not_isSome_iff_eq_none.mp hin
    · rw [lookupK_rooms_removePlayer rm p now x hxq] at hx
      refine honce (x, rx) (lookupK_some_mem _ _ _ hx) ?_
      rw [← hgq]
      exact hxq

/-- Witness for C8: in a registry where "p" lives in room "Q" and room "R" is
full, the failed move leaves "p" in no room and unindexed. -/
def c8RoomQ : Room :=
  { id := "Q", players := [("p", newPlayer "p" 0)], createdAt := 0,
    lastActivity := 0, playerCount := 1 }

def c8RM : RoomManager :=
  { mainRoomID := "M",
    rooms := [("M", newRoom "M" 0), ("Q", c8RoomQ), ("R", fullRoom "R")],
    playerToRoom := [("p", "Q")] }

theorem claim8_witness :
    (AddPlayerToSpecificRoom c8RM "p" "R" 9).2 =
      .error ("room " ++ "R" ++ " is full") ∧
    lookupK (AddPlayerToSpecificRoom c8RM "p" "R" 9).1.playerToRoom "p" =
      none ∧
    (∀ x rx, lookupK (AddPlayerToSpecificRoom c8RM "p" "R" 9).1.rooms x =
        some rx → lookupK rx.players "p" = none) :=
  claim8_failed_add_not_atomic c8RM "p" "Q" "R" (fullRoom "R") 9 (by decide)
    (by decide) (by decide) (by decide) (by decide) (by decide)

/-!
## C6 — sender exclusion in room broadcasts
-/

/-- The fan-out of `broadcastToRoomAsync` never targets the excluded id. -/
theorem not_mem_broadcastTargets (room : Room) (p : String)
    (pool : List String) : p ∉ broadcastToRoomAsyncTargets room p pool := by
  intro h
  rw [broadcastToRoomAsyncTargets] at h
  have hp := List.of_mem_filter h
  simp at hp

/-- Claim C6: in every room broadcast of the system — position updates, chat
messages, the join notification of a connecting player, and the leave
notification on disconnect — the sender's own id is never among the targets,
so a sender never receives an echo of its own broadcast. -/
theorem claim6_no_self_echo (rm : RoomManager) (p username : String)
    (pos : Position) (pool : List String) (room : Room) (now : Nat) :
    p ∉ (handlePositionUpdateOptimized rm p pos username pool now).2 ∧
    p ∉ handleChatMessageTargets rm p pool ∧
    p ∉ sendInitialRoomStateJoinTargets room p pool ∧
    p ∉ (handleDisconnect rm p pool).2 ∧
    p ∉ broadcastToRoomAsyncTargets room p pool := by
  refine ⟨?_, ?_, not_mem_broadcastTargets room p pool, ?_,
    not_mem_broadcastTargets room p pool⟩
  · rw [handlePositionUpdateOptimized]
    split
    · simp
    · split
      · simp
      · exact not_mem_broadcastTargets _ p pool
  · rw [handleChatMessageTargets]
    split
    · simp
    · exact not_mem_broadcastTargets _ p pool
  · rw [handleDisconnect]
    split
    · simp
    · exact not_mem_broadcastTargets _ p pool

/-!
## C7 — cleanup sweep and main-room preservation
-/

/-- The main room is present in the registry's rooms map. -/
def mainPresent (rm : RoomManager) : Prop :=
  (lookupK rm.rooms rm.mainRoomID).isSome = true

theorem isSome_lookupK_insertK {α : Type} (m : List (String × α))
    (k x : String) (v : α) (h : (lookupK m x).isSome = true) :
    (lookupK (insertK m k v) x).isSome = true := by
  rw [lookupK_insertK]
  by_cases hk : k = x
  · simp [hk]
  · simpa [hk] using h

/-- Filtering an association list with a predicate that keeps every binding
of key `x` preserves the presence of `x`. -/
theorem lookupK_filter_isSome {α : Type} (P : String → α → Bool)
    (m : List (String × α)) (x : String) (hP : ∀ v, P x v = true)
    (h : (lookupK m x).isSome = true) :
    (lookupK (m.filter (fun e => P e.1 e.2)) x).isSome = true := by
  induction m with
  | nil => simp [lookupK] at h
  | cons hd t ih =>
    obtain ⟨k, v⟩ := hd
    by_cases hk : k = x
    · subst hk
      rw [List.filter_cons_of_pos (by simpa using hP v), lookupK, if_pos rfl]
      simp
    · rw [lookupK, if_neg hk] at h
      by_cases hPk : P k v = true
      · rw [List.filter_cons_of_pos (by simpa using hPk), lookupK, if_neg hk]
        exact ih h
      · rw [List.filter_cons_of_neg (by simpa using hPk)]
        exact ih h

/-- On a key-unique association list, filtering commutes with lookup. -/
theorem lookupK_filterP {α : Type} (P : String → α → Bool)
    (m : List (String × α)) (hnd : (keysOf m).Nodup) (x : String) :
    lookupK (m.filter (fun e => P e.1 e.2)) x =
      match lookupK m x with
      | none => none
      | some v => if P x v then some v else none := by
  induction m with
  | nil => simp [lookupK]
  | cons hd t ih =>
    obtain ⟨k, v⟩ := hd
    have hnd2 : (k :: keysOf t).Nodup := by
      simpa only [keysOf, List.map_cons] using hnd
    have hknot : k ∉ keysOf t := (List.nodup_cons.mp hnd2).1
    have hnd' : (keysOf t).Nodup := (List.nodup_cons.mp hnd2).2
    by_cases hk : k = x
    · subst hk
      by_cases hPk : P k v = true
      · rw [List.filter_cons_of_pos (by simpa using hPk)]
        simp [lookupK, hPk]
      · rw [List.filter_cons_of_neg (by simpa using hPk), ih hnd',
          lookupK_eq_none_of_not_mem_keys t k hknot]
        simp [lookupK, hPk]
    · by_cases hPk : P k v = true
      · rw [List.filter_cons_of_pos (by simpa using hPk)]
        simp only [lookupK, if_neg hk]
        exact ih hnd'
      · rw [List.filter_cons_of_neg (by simpa using hPk), ih hnd']
        simp only [lookupK, if_neg hk]

theorem mainPresent_removePlayer (rm : RoomManager) (p : String) (now : Nat)
    (h : mainPresent rm) : mainPresent (RemovePlayerOptimized rm p now) := by
  rw [RemovePlayerOptimized]
  split
  · exact h
  · split
    · exact h
    · exact isSome_lookupK_insertK _ _ _ _ h

theorem mainPresent_addPlayerToRoom (rm : RoomManager) (p r : String)
    (now : Nat) (h : mainPresent rm) :
    mainPresent (addPlayerToRoom rm p r now).1 := by
  rw [addPlayerToRoom]
  split
  · exact h
  · split
    · exact h
    · exact isSome_lookupK_insertK _ _ _ _ h

theorem mainPresent_AddPlayer (rm : RoomManager) (p : String) (now : Nat)
    (h : mainPresent rm) : mainPresent (AddPlayer rm p now).1 := by
  rw [AddPlayer]
  split
  · split
    · exact h
    · split
      all_goals rename_i heq
      all_goals
        have hmp := mainPresent_addPlayerToRoom
          (RemovePlayerOptimized rm p now) p rm.mainRoomID now
          (mainPresent_removePlayer rm p now h)
      all_goals rw [heq] at hmp
      all_goals exact hmp
  · split
    all_goals rename_i heq
    all_goals have hmp := mainPresent_addPlayerToRoom rm p rm.mainRoomID now h
    all_goals rw [heq] at hmp
    all_goals exact hmp

theorem mainPresent_evictIfPresent (rm : RoomManager) (p : String)
    (now : Nat) (h : mainPresent rm) :
    mainPresent (evictIfPresent rm p now) := by
  rw [evictIfPresent]
  split
  · exact mainPresent_removePlayer rm p now h
  · exact h

theorem mainPresent_ensureRoom (rm1 : RoomManager) (r : String) (now : Nat)
    (h : mainPresent rm1) : mainPresent (ensureRoom rm1 r now) := by
  rw [ensureRoom]
  split
  · exact h
  · exact isSome_lookupK_insertK _ _ _ _ h

theorem mainPresent_AddSpecific (rm : RoomManager) (p r : String) (now : Nat)
    (h : mainPresent rm) :
    mainPresent (AddPlayerToSpecificRoom rm p r now).1 := by
  rw [AddPlayerToSpecificRoom]
  split
  · exact h
  · have h2 : mainPresent (ensureRoom (evictIfPresent rm p now) r now) :=
      mainPresent_ensureRoom _ r now (mainPresent_evictIfPresent rm p now h)
    split
    all_goals rename_i heq
    all_goals
      have hmp := mainPresent_addPlayerToRoom
        (ensureRoom (evictIfPresent rm p now) r now) p r now h2
    all_goals rw [heq] at hmp
    all_goals exact hmp

theorem mainPresent_GetPlayer (rm : RoomManager) (p : String)
    (h : mainPresent rm) : mainPresent (GetPlayer rm p).1 := by
  rw [GetPlayer]
  split
  · exact h
  · split
    · exact h
    · exact h

theorem mainPresent_positionUpdate (rm : RoomManager) (p u : String)
    (pos : Position) (pool : List String) (now : Nat) (h : mainPresent rm) :
    mainPresent (handlePositionUpdateOptimized rm p pos u pool now).1 := by
  rw [handlePositionUpdateOptimized]
  split
  · exact h
  · split
    · exact h
    · exact isSome_lookupK_insertK _ _ _ _ h

theorem mainPresent_disconnect (rm : RoomManager) (p : String)
    (pool : List String) (h : mainPresent rm) :
    mainPresent (handleDisconnect rm p pool).1 := by
  rw [handleDisconnect]
  split
  · exact h
  · exact isSome_lookupK_insertK _ _ _ _ h

theorem mainPresent_performCleanup (rm : RoomManager) (now : Nat)
    (h : mainPresent rm) : mainPresent (performCleanup rm now) := by
  exact lookupK_filter_isSome
    (fun rid room => !(decide (rid ≠ rm.mainRoomID ∧
      room.players.length = 0 ∧
      InactiveRoomTimeout < now - room.lastActivity)))
    rm.rooms rm.mainRoomID (fun v => by simp) h

/-- The registry states reachable from server start by the registry
operations and the cleanup sweep. -/
inductive Reachable : RoomManager → Prop where
  | init (mainID : String) (t : Nat) : Reachable (initManager mainID t)
  | addPlayer (rm : RoomManager) (p : String) (now : Nat) :
      Reachable rm → Reachable (AddPlayer rm p now).1
  | addSpecific (rm : RoomManager) (p r : String) (now : Nat) :
      Reachable rm → Reachable (AddPlayerToSpecificRoom rm p r now).1
  | removePlayer (rm : RoomManager) (p : String) (now : Nat) :
      Reachable rm → Reachable (RemovePlayerOptimized rm p now)
  | getPlayer (rm : RoomManager) (p : String) :
      Reachable rm → Reachable (GetPlayer rm p).1
  | positionUpdate (rm : RoomManager) (p u : String) (pos : Position)
      (pool : List String) (now : Nat) :
      Reachable rm →
      Reachable (handlePositionUpdateOptimized rm p pos u pool now).1
  | disconnect (rm : RoomManager) (p : String) (pool : List String) :
      Reachable rm → Reachable (handleDisconnect rm p pool).1
  | cleanup (rm : RoomManager) (now : Nat) :
      Reachable rm → Reachable (performCleanup rm now)

theorem mainPresent_of_reachable (rm : RoomManager) (h : Reachable rm) :
    mainPresent rm := by
  induction h with
  | init mainID t => simp [mainPresent, initManager, lookupK]
  | addPlayer rm p now _ ih => exact mainPresent_AddPlayer rm p now ih
  | addSpecific rm p r now _ ih => exact mainPresent_AddSpecific rm p r now ih
  | removePlayer rm p now _ ih => exact mainPresent_removePlayer rm p now ih
  | getPlayer rm p _ ih => exact mainPresent_GetPlayer rm p ih
  | positionUpdate rm p u pos pool now _ ih =>
      exact mainPresent_positionUpdate rm p u pos pool now ih
  | disconnect rm p pool _ ih => exact mainPresent_disconnect rm p pool ih
  | cleanup rm now _ ih => exact mainPresent_performCleanup rm now ih

/-- Claim C7: a cleanup sweep deletes exactly the non-main rooms that have
zero players and have been inactive for more than `InactiveRoomTimeout`
(every other room keeps its entry unchanged), and every registry state
reachable by the registry operations and sweeps still contains the main
room. -/
theorem claim7_cleanup_exact_and_main (rm : RoomManager) (now : Nat)
    (rid : String) (hnd : (keysOf rm.rooms).Nodup) :
    (lookupK (performCleanup rm now).rooms rid =
      match lookupK rm.rooms rid with
      | none => none
      | some room =>
        if rid ≠ rm.mainRoomID ∧ room.players.length = 0 ∧
            InactiveRoomTimeout < now - room.lastActivity
        then none else some room) ∧
    (∀ rm', Reachable rm' → mainPresent rm') := by
  refine ⟨?_, fun rm' h => mainPresent_of_reachable rm' h⟩
  rw [performCleanup]
  rw [lookupK_filterP
    (fun rid2 room => !(decide (rid2 ≠ rm.mainRoomID ∧
      room.players.length = 0 ∧
      InactiveRoomTimeout < now - room.lastActivity))) rm.rooms hnd rid]
  cases hL : lookupK rm.rooms rid with
  | none => rfl
  | some room =>
    show (if (!decide (rid ≠ rm.mainRoomID ∧ room.players.length = 0 ∧
        InactiveRoomTimeout < now - room.lastActivity)) = true
      then some room else none) =
      if rid ≠ rm.mainRoomID ∧ room.players.length = 0 ∧
          InactiveRoomTimeout < now - room.lastActivity
      then none else some room
    by_cases hC : rid ≠ rm.mainRoomID ∧ room.players.length = 0 ∧
        InactiveRoomTimeout < now - room.lastActivity
    · have hb : (!decide (rid ≠ rm.mainRoomID ∧ room.players.length = 0 ∧
          InactiveRoomTimeout < now - room.lastActivity)) = false := by
        simp only [decide_eq_true hC, Bool.not_true]
      rw [hb, if_pos hC]
      simp
    · have hb : (!decide (rid ≠ rm.mainRoomID ∧ room.players.length = 0 ∧
          InactiveRoomTimeout < now - room.lastActivity)) = true := by
        simp only [decide_eq_false hC, Bool.not_false]
      rw [hb, if_neg hC]
      simp

/-- Witness for C7: a registry holding the main room "M" and a stale empty
room "OLD"; the sweep at a late instant deletes exactly "OLD". -/
def c7RM : RoomManager :=
  { mainRoomID := "M", rooms := [("M", newRoom "M" 0), ("OLD", newRoom "OLD" 0)],
    playerToRoom := [] }

theorem claim7_witness :
    (lookupK (performCleanup c7RM (31 * timeMinute)).rooms "OLD" =
      match lookupK c7RM.rooms "OLD" with
      | none => none
      | some room =>
        if "OLD" ≠ c7RM.mainRoomID ∧ room.players.length = 0 ∧
            InactiveRoomTimeout < 31 * timeMinute - room.lastActivity
        then none else some room) ∧
    (∀ rm', Reachable rm' → mainPresent rm') :=
  claim7_cleanup_exact_and_main c7RM (31 * timeMinute) "OLD" (by decide)

/-!
## C9 — connection-pool count invariant
-/

theorem lookupK_isSome_of_mem_keys {α : Type} (m : List (String × α))
    (x : String) (h : x ∈ keysOf m) : (lookupK m x).isSome = true := by
  induction m with
  | nil => simp [keysOf] at h
  | cons hd t ih =>
    obtain ⟨k, v⟩ := hd
    by_cases hk : k = x
    · simp [lookupK, hk]
    · rw [lookupK, if_neg hk]
      simp only [keysOf, List.map_cons, List.mem_cons] at h
      rcases h with h | h
      · exact absurd h.symm hk
      · exact ih h

theorem mem_keys_of_mem_keys_eraseK {α : Type} (m : List (String × α))
    (k x : String) (h : x ∈ keysOf (eraseK m k)) : x ∈ keysOf m := by
  induction m with
  | nil => simpa [eraseK] using h
  | cons hd t ih =>
    obtain ⟨k', v⟩ := hd
    by_cases hk : k' = k
    · rw [eraseK, if_pos hk] at h
      exact List.mem_cons_of_mem _ (ih h)
    · rw [eraseK, if_neg hk] at h
      simp only [keysOf, List.map_cons, List.mem_cons] at h ⊢
      rcases h with h | h
      · exact Or.inl h
      · exact Or.inr (ih h)

theorem not_mem_keys_eraseK {α : Type} (m : List (String × α)) (k : String) :
    k ∉ keysOf (eraseK m k) := by
  induction m with
  | nil => simp [eraseK, keysOf]
  | cons hd t ih =>
    obtain ⟨k', v⟩ := hd
    by_cases hk : k' = k
    · rw [eraseK, if_pos hk]; exact ih
    · rw [eraseK, if_neg hk]
      simp only [keysOf, List.map_cons, List.mem_cons, not_or]
      exact ⟨fun h => hk h.symm, ih⟩

theorem nodup_keys_eraseK {α : Type} (m : List (String × α)) (k : String)
    (h : (keysOf m).Nodup) : (keysOf (eraseK m k)).Nodup := by
  induction m with
  | nil => simpa [eraseK] using h
  | cons hd t ih =>
    obtain ⟨k', v⟩ := hd
    have h2 : (k' :: keysOf t).Nodup := by
      simpa only [keysOf, List.map_cons] using h
    have hmem : k' ∉ keysOf t := (List.nodup_cons.mp h2).1
    have ht : (keysOf t).Nodup := (List.nodup_cons.mp h2).2
    by_cases hk : k' = k
    · rw [eraseK, if_pos hk]; exact ih ht
    · rw [eraseK, if_neg hk]
      simp only [keysOf, List.map_cons]
      refine List.nodup_cons.mpr ⟨?_, ih ht⟩
      exact fun hc => hmem (mem_keys_of_mem_keys_eraseK t k k' hc)

/-- On a key-unique list, erasing a present key removes exactly one entry. -/
theorem length_eraseK_of_isSome {α : Type} (m : List (String × α))
    (k : String) (hnd : (keysOf m).Nodup)
    (h : (lookupK m k).isSome = true) :
    (eraseK m k).length + 1 = m.length := by
  induction m with
  | nil => simp [lookupK] at h
  | cons hd t ih =>
    obtain ⟨k', v⟩ := hd
    have h2 : (k' :: keysOf t).Nodup := by
      simpa only [keysOf, List.map_cons] using hnd
    have hmem : k' ∉ keysOf t := (List.nodup_cons.mp h2).1
    have ht : (keysOf t).Nodup := (List.nodup_cons.mp h2).2
    by_cases hk : k' = k
    · subst hk
      rw [eraseK, if_pos rfl, eraseK_of_lookupK_none t k'
        (lookupK_eq_none_of_not_mem_keys t k' hmem)]
      simp
    · rw [lookupK, if_neg hk] at h
      rw [eraseK, if_neg hk]
      simp only [List.length_cons]
      have := ih ht h
      omega

/-- The pool invariants: `count` mirrors the number of pooled connections
and player ids are unique keys. -/
def PoolWF (cp : ConnectionPool) : Prop :=
  cp.count = (cp.connections.length : Int) ∧
  (keysOf cp.connections).Nodup

theorem poolWF_addConnection (cp : ConnectionPool) (pid : String)
    (conn : Connection) (h : PoolWF cp) :
    PoolWF (addConnection cp pid conn) := by
  obtain ⟨hc, hnd⟩ := h
  rw [addConnection]
  by_cases hex : (lookupK cp.connections pid).isSome = true
  · rw [if_pos hex]
    have hlen := length_eraseK_of_isSome cp.connections pid hnd hex
    constructor
    · show cp.count - 1 + 1 =
        (((pid, conn) :: eraseK cp.connections pid).length : Int)
      rw [List.length_cons]
      omega
    · simp only [keysOf, List.map_cons]
      exact List.nodup_cons.mpr
        ⟨not_mem_keys_eraseK cp.connections pid,
         nodup_keys_eraseK cp.connections pid hnd⟩
  · rw [if_neg hex]
    have hnm : pid ∉ keysOf cp.connections :=
      fun hmem => hex (lookupK_isSome_of_mem_keys cp.connections pid hmem)
    constructor
    · show cp.count + 1 = (((pid, conn) :: cp.connections).length : Int)
      rw [List.length_cons]
      omega
    · simp only [keysOf, List.map_cons]
      exact List.nodup_cons.mpr ⟨hnm, hnd⟩

theorem poolWF_removeConnection (cp : ConnectionPool) (pid : String)
    (h : PoolWF cp) : PoolWF (removeConnection cp pid) := by
  obtain ⟨hc, hnd⟩ := h
  rw [removeConnection]
  by_cases hex : (lookupK cp.connections pid).isSome = true
  · rw [if_pos hex]
    have hlen := length_eraseK_of_isSome cp.connections pid hnd hex
    constructor
    · show cp.count - 1 = ((eraseK cp.connections pid).length : Int)
      omega
    · exact nodup_keys_eraseK cp.connections pid hnd
  · rw [if_neg hex]
    exact ⟨hc, hnd⟩

theorem poolWF_applyPoolOp (cp : ConnectionPool) (op : PoolOp)
    (h : PoolWF cp) : PoolWF (applyPoolOp cp op) := by
  cases op with
  | add p c => exact poolWF_addConnection cp p c h
  | remove p => exact poolWF_removeConnection cp p h

theorem poolWF_applyPoolOps (cp : ConnectionPool) (ops : List PoolOp)
    (h : PoolWF cp) : PoolWF (applyPoolOps cp ops) := by
  induction ops generalizing cp with
  | nil => exact h
  | cons op t ih => exact ih (applyPoolOp cp op) (poolWF_applyPoolOp cp op h)

/-- Claim C9: after any sequence of `addConnection` / `removeConnection`
operations from the empty pool, the pool's `count` equals the number of
entries in its connections map; and `addConnection` for a player id that
already has an entry evicts and replaces it, leaving `count` unchanged. -/
theorem claim9_pool_count_invariant (ops : List PoolOp)
    (cp : ConnectionPool) (p : String) (conn : Connection)
    (hex : (lookupK cp.connections p).isSome = true) :
    ((applyPoolOps emptyPool ops).count =
      ((applyPoolOps emptyPool ops).connections.length : Int)) ∧
    ((addConnection cp p conn).count = cp.count ∧
     lookupK (addConnection cp p conn).connections p = some conn) := by
  refine ⟨?_, ?_, ?_⟩
  · exact (poolWF_applyPoolOps emptyPool ops
      ⟨rfl, by simp [emptyPool, keysOf]⟩).1
  · rw [addConnection, if_pos hex]
    show cp.count - 1 + 1 = cp.count
    omega
  · rw [addConnection]
    simp [lookupK]

/-- Witness for C9 at a concrete pool and op sequence: "a" reconnects
(evicting its old connection), "b" connects, "a" disconnects. -/
def c9Pool : ConnectionPool :=
  { connections := [("a", { playerID := "a", serial := 0 })], count := 1 }

theorem claim9_witness :
    ((applyPoolOps emptyPool
        [PoolOp.add "a" { playerID := "a", serial := 1 },
         PoolOp.add "b" { playerID := "b", serial := 2 },
         PoolOp.add "a" { playerID := "a", serial := 3 },
         PoolOp.remove "a"]).count =
      ((applyPoolOps emptyPool
        [PoolOp.add "a" { playerID := "a", serial := 1 },
         PoolOp.add "b" { playerID := "b", serial := 2 },
         PoolOp.add "a" { playerID := "a", serial := 3 },
         PoolOp.remove "a"]).connections.length : Int)) ∧
    ((addConnection c9Pool "a" { playerID := "a", serial := 4 }).count =
      c9Pool.count ∧
     lookupK (addConnection c9Pool "a"
        { playerID := "a", serial := 4 }).connections "a" =
      some { playerID := "a", serial := 4 }) :=
  claim9_pool_count_invariant
    [PoolOp.add "a" { playerID := "a", serial := 1 },
     PoolOp.add "b" { playerID := "b", serial := 2 },
     PoolOp.add "a" { playerID := "a", serial := 3 },
     PoolOp.remove "a"]
    c9Pool "a" { playerID := "a", serial := 4 } (by decide)

/-!
## C5 and C10 — private-message rate limiting
-/

/-- One in-window frame with quota left and a valid, reachable, connected
target is delivered with a confirmation, and the counter advances. -/
theorem handlePM_in_window_delivered (rm : RoomManager) (pool : List String)
    (sender target text : String) (pl : Player) (t1 c t : Nat)
    (hwin : t - t1 < timeMinute) (hc : c < 20)
    (htext : ¬ 500 < text.length) (htrim : ¬ trimSpace text = "")
    (ht0 : ¬ target = "") (hts : ¬ target = sender)
    (hget : GetPlayer rm target = (rm, some pl))
    (hpool : target ∈ pool) :
    handlePrivateMessage rm ⟨t1, c⟩ sender target text pool t =
      (rm, ⟨t1, c + 1⟩, deliveredEffect) := by
  have hrl : rateLimitStep ⟨t1, c⟩ t = (⟨t1, c + 1⟩, true) := by
    rw [rateLimitStep, if_pos hwin, if_neg (by omega : ¬ 20 < c + 1)]
  simp [handlePrivateMessage, hrl, htext, htrim, ht0, hts, hget, hpool,
    deliveredEffect]

/-- One in-window frame with the quota exhausted is silently dropped while
the counter still advances. -/
theorem handlePM_in_window_dropped (rm : RoomManager) (pool : List String)
    (sender target text : String) (t1 c t : Nat)
    (hwin : t - t1 < timeMinute) (hc : 20 ≤ c) :
    handlePrivateMessage rm ⟨t1, c⟩ sender target text pool t =
      (rm, ⟨t1, c + 1⟩, noEffect) := by
  have hrl : rateLimitStep ⟨t1, c⟩ t = (⟨t1, c + 1⟩, false) := by
    rw [rateLimitStep, if_pos hwin, if_pos (by omega : 20 < c + 1)]
  simp [handlePrivateMessage, hrl]

/-- Frames inside one rate-limit window: with the counter at `c ≥ 1` the next
`20 - c` valid frames are delivered and everything after is dropped. -/
theorem runFrames_window (rm : RoomManager) (pool : List String)
    (sender target text : String) (pl : Player) (t1 : Nat) (c : Nat)
    (hc : 1 ≤ c) (ts : List Nat)
    (hwin : ∀ t ∈ ts, t - t1 < timeMinute)
    (htext : ¬ 500 < text.length) (htrim : ¬ trimSpace text = "")
    (ht0 : ¬ target = "") (hts : ¬ target = sender)
    (hget : GetPlayer rm target = (rm, some pl))
    (hpool : target ∈ pool) :
    (runFrames rm pool sender target text ⟨t1, c⟩ ts).2.2 =
      List.replicate (min (20 - c) ts.length) deliveredEffect ++
      List.replicate (ts.length - (20 - c)) noEffect := by
  induction ts generalizing c with
  | nil => simp [runFrames]
  | cons t ts ih =>
    have hwt : t - t1 < timeMinute := hwin t (List.mem_cons_self _ _)
    have hwin' : ∀ t2 ∈ ts, t2 - t1 < timeMinute :=
      fun t2 h2 => hwin t2 (List.mem_cons_of_mem _ h2)
    by_cases hc20 : c < 20
    · simp only [runFrames,
        handlePM_in_window_delivered rm pool sender target text pl t1 c t
          hwt hc20 htext htrim ht0 hts hget hpool,
        ih (c + 1) (by omega) hwin']
      have h1 : min (20 - c) (ts.length + 1) =
          min (20 - (c + 1)) ts.length + 1 := by omega
      have h2 : (ts.length + 1) - (20 - c) =
          ts.length - (20 - (c + 1)) := by omega
      rw [List.length_cons, h1, h2, List.replicate_succ, List.cons_append]
    · simp only [runFrames,
        handlePM_in_window_dropped rm pool sender target text t1 c t hwt
          (by omega),
        ih (c + 1) (by omega) hwin']
      have h1 : min (20 - (c + 1)) ts.length = 0 := by omega
      have h2 : ts.length - (20 - (c + 1)) = ts.length := by omega
      have h3 : min (20 - c) (ts.length + 1) = 0 := by omega
      have h4 : (ts.length + 1) - (20 - c) = ts.length + 1 := by omega
      rw [List.length_cons, h1, h2, h3, h4, List.replicate_succ]
      simp

/-- Claim C5: a fresh connection sending 25 valid private-message frames to a
reachable, connected target within one minute gets exactly the first 20
delivered (each with a `private_message_sent` confirmation) and the last 5
silently dropped — no delivery, no confirmation, no error frame. -/
theorem claim5_private_message_rate_limit (rm : RoomManager)
    (pool : List String) (sender target text : String) (pl : Player)
    (t1 : Nat) (ts : List Nat)
    (hlen : ts.length = 24) (ht1 : timeMinute ≤ t1)
    (hwin : ∀ t ∈ ts, t - t1 < timeMinute)
    (htext : ¬ 500 < text.length) (htrim : ¬ trimSpace text = "")
    (ht0 : ¬ target = "") (hts2 : ¬ target = sender)
    (hget : GetPlayer rm target = (rm, some pl))
    (hpool : target ∈ pool) :
    (runFrames rm pool sender target text ⟨0, 0⟩ (t1 :: ts)).2.2 =
      List.replicate 20 deliveredEffect ++ List.replicate 5 noEffect := by
  have hfirst : handlePrivateMessage rm ⟨0, 0⟩ sender target text pool t1 =
      (rm, ⟨t1, 1⟩, deliveredEffect) := by
    have hrl : rateLimitStep ⟨0, 0⟩ t1 = (⟨t1, 1⟩, true) := by
      rw [rateLimitStep, if_neg (by simpa using not_lt.mpr ht1)]
    simp [handlePrivateMessage, hrl, htext, htrim, ht0, hts2, hget, hpool,
      deliveredEffect]
  simp only [runFrames, hfirst,
    runFrames_window rm pool sender target text pl t1 1 (by omega) ts hwin
      htext htrim ht0 hts2 hget hpool]
  rw [hlen]
  decide

/-- A two-member room and its registry used by the messaging witnesses:
"alice" and "bob" share the main room "M" and "bob" holds a connection. -/
def pmRoom : Room :=
  { id := "M",
    players := [("alice", newPlayer "alice" 0), ("bob", newPlayer "bob" 0)],
    createdAt := 0, lastActivity := 0, playerCount := 2 }

def pmRM : RoomManager :=
  { mainRoomID := "M", rooms := [("M", pmRoom)],
    playerToRoom := [("alice", "M"), ("bob", "M")] }

/-- Witness for C5: 25 frames from "alice" to "bob", all at the instant
`timeMinute`, produce 20 deliveries-with-confirmation then 5 silent drops. -/
theorem claim5_witness :
    (runFrames pmRM ["bob"] "alice" "bob" "hi" ⟨0, 0⟩
        (timeMinute :: List.replicate 24 timeMinute)).2.2 =
      List.replicate 20 deliveredEffect ++ List.replicate 5 noEffect :=
  claim5_private_message_rate_limit pmRM ["bob"] "alice" "bob" "hi"
    (newPlayer "bob" 0) timeMinute (List.replicate 24 timeMinute)
    (by decide) (by decide) (by decide) (by decide) (by decide) (by decide)
    (by decide) (by decide) (by decide)

/-- Claim C10: inside the running minute an inbound `private_message` frame
increments `messageCount` before any validation runs — a frame rejected for
over-long text, empty text, missing target or self-target still consumes
quota (and produces no effect) — and once the counter has reached 20, any
further in-window frame, valid or not, is dropped with no effect. -/
theorem claim10_quota_before_validation (rm : RoomManager) (st : ConnState)
    (pool : List String) (sender target text : String) (now : Nat)
    (hwin : now - st.lastMessageTime < timeMinute)
    (hbad : 500 < text.length ∨ trimSpace text = "" ∨ target = "" ∨
      target = sender) :
    ((handlePrivateMessage rm st sender target text pool now).1 = rm ∧
     (handlePrivateMessage rm st sender target text pool now).2.1 =
       { lastMessageTime := st.lastMessageTime,
         messageCount := st.messageCount + 1 } ∧
     (handlePrivateMessage rm st sender target text pool now).2.2 =
       noEffect) ∧
    (∀ target2 text2, 20 ≤ st.messageCount →
      (handlePrivateMessage rm st sender target2 text2 pool now).2.2 =
        noEffect) := by
  constructor
  · by_cases hrate : 20 < st.messageCount + 1
    · have hrl : rateLimitStep st now =
          ({ st with messageCount := st.messageCount + 1 }, false) := by
        rw [rateLimitStep, if_pos hwin, if_pos hrate]
      refine ⟨?_, ?_, ?_⟩ <;> simp [handlePrivateMessage, hrl]
    · have hrl : rateLimitStep st now =
          ({ st with messageCount := st.messageCount + 1 }, true) := by
        rw [rateLimitStep, if_pos hwin, if_neg hrate]
      refine ⟨?_, ?_, ?_⟩ <;>
        (simp only [handlePrivateMessage, hrl]
         split_ifs <;> first | rfl | (exfalso; simp_all))
  · intro target2 text2 hc
    have hrl : rateLimitStep st now =
        ({ st with messageCount := st.messageCount + 1 }, false) := by
      rw [rateLimitStep, if_pos hwin, if_pos (by omega : 20 <
        st.messageCount + 1)]
    simp [handlePrivateMessage, hrl]

/-- Witness for C10: a whitespace-rejected frame at counter 3 still bumps the
counter to 4, and at counter 20 everything in-window is dropped. -/
theorem claim10_witness :
    ((handlePrivateMessage pmRM ⟨5, 3⟩ "alice" "bob" "" ["bob"] 5).1 =
       pmRM ∧
     (handlePrivateMessage pmRM ⟨5, 3⟩ "alice" "bob" "" ["bob"] 5).2.1 =
       { lastMessageTime := 5, messageCount := 4 } ∧
     (handlePrivateMessage pmRM ⟨5, 3⟩ "alice" "bob" "" ["bob"] 5).2.2 =
       noEffect) ∧
    (∀ target2 text2, 20 ≤ (⟨5, 3⟩ : ConnState).messageCount →
      (handlePrivateMessage pmRM ⟨5, 3⟩ "alice" target2 text2 ["bob"]
        5).2.2 = noEffect) :=
  claim10_quota_before_validation pmRM ⟨5, 3⟩ ["bob"] "alice" "bob" "" 5
    (by decide) (by decide)

end Velvet
